import Mathlib

/-!
Verification of the CogMem partitioned episodic memory store.

The definitions below are a shallow embedding of the Go sources:
`internal/domain/entity` (EpisodicMemory, PartitionContext, NewEpisodicMemory),
the Postgres repository `internal/infrastructure/persistence/postgres/episodic_repository.go`
(Save, FindByID, FindRecent, FindByVector, each a single SQL statement against
the `episodic_memory` table of migration 0001), and — where the spec describes
code not present in the sources — definitions modelled from the spec text.

The database table is modelled as a list of rows in physical order together
with the declared vector dimension; SQL WHERE clauses become boolean filters
(three-valued logic made explicit for the nullable `entity_id` column), ORDER
BY becomes a stable sort over physical row order, and LIMIT becomes `take`.
Timestamps are integers (epoch), float32/float64 values are rationals, and
UUIDs are 16-byte lists.
-/

namespace CogMem

/-- UUID values are 16 bytes; modelled as a list of byte values. -/
abbrev UUID := List Nat

/-- The all-zero UUID, `uuid.Nil` in the Go uuid package. -/
def uuidNil : UUID := List.replicate 16 0

/-- Modelled from the Go `github.com/google/uuid` package used by the sources:
`uuid.New` draws 16 random bytes (here passed explicitly as `entropy`), then
stamps version 4 into byte 6 (`b[6] = (b[6] & 0x0f) | 0x40`) and the RFC 4122
variant into byte 8 (`b[8] = (b[8] & 0x3f) | 0x80`). -/
def uuidNew (entropy : List Nat) : UUID :=
  ((entropy.map (fun b => b % 256)).set 6 ((entropy.getD 6 0 % 256 &&& 0x0f) ||| 0x40)).set 8
    ((entropy.getD 8 0 % 256 &&& 0x3f) ||| 0x80)

/-- Row of the `episodic_memory` table / the Go `entity.EpisodicMemory` struct.
`EntityID` is the nullable `entity_id` column. Timestamps are integers,
embeddings are vectors of rationals (float32 values are rationals). -/
structure EpisodicMemory where
  ID : UUID
  UserID : UUID
  EntityID : Option UUID
  Content : String
  Embedding : List ℚ
  Timestamp : Int
  ShareScope : String
  LastAccessed : Int
  AccessibilityScore : ℚ
deriving DecidableEq

/-- The Go `entity.PartitionContext`: primary partition key `UserID` and the
optional secondary qualifier `EntityID`. -/
structure PartitionContext where
  UserID : UUID
  EntityID : Option UUID
deriving DecidableEq

/-- The Go constructor `entity.NewEpisodicMemory`: fresh id from `uuid.New`
(entropy passed explicitly), `LastAccessed` initialized to the supplied
timestamp, `AccessibilityScore` initialized to 1.0, all other fields taken
from the arguments. -/
def NewEpisodicMemory (entropy : List Nat) (userID : UUID) (entityID : Option UUID)
    (content : String) (embedding : List ℚ) (timestamp : Int) (shareScope : String) :
    EpisodicMemory :=
  { ID := uuidNew entropy
    UserID := userID
    EntityID := entityID
    Content := content
    Embedding := embedding
    Timestamp := timestamp
    ShareScope := shareScope
    LastAccessed := timestamp
    AccessibilityScore := 1 }

/-- The `episodic_memory` table: rows in physical order, plus the embedding
dimension declared by the column type `vector(1536)` of migration 0001 (kept
as a field so theorems range over any configured dimension). -/
structure Store where
  dim : Nat
  rows : List EpisodicMemory
deriving DecidableEq

/-- SQL equality `x = y` on the nullable `entity_id` column under three-valued
logic: the comparison is satisfied only when both sides are non-NULL and
equal; comparing with NULL yields NULL, which does not satisfy the WHERE
clause. -/
def sqlEqNullable (x y : Option UUID) : Bool :=
  match x, y with
  | some a, some b => decide (a = b)
  | _, _ => false

/-- The partition filter shared by the repository's SELECTs:
`user_id = $user AND (entity_id IS NULL OR entity_id = $entity)`,
with the `$entity` parameter taken from `PartitionContext.EntityID`. -/
def matchesPartition (p : PartitionContext) (r : EpisodicMemory) : Bool :=
  decide (r.UserID = p.UserID) && (r.EntityID.isNone || sqlEqNullable r.EntityID p.EntityID)

/-- The partition predicate as the specification words it (§4.1): a record
matches `\x7bowner_id=U, sub_scope_id=S\x7d` iff its owner is `U` and (`S` is
absent, or the record's sub-scope is absent, or the two are equal). Stated for
comparison against `matchesPartition`, the predicate the SQL implements. -/
def matchesPartitionSpec (p : PartitionContext) (r : EpisodicMemory) : Bool :=
  decide (r.UserID = p.UserID) &&
    (p.EntityID.isNone || r.EntityID.isNone || decide (r.EntityID = p.EntityID))

/-- Failure modes of the INSERT run by `Save`: the `vector(1536)` column type
rejects a vector of any other dimension, and the `id UUID PRIMARY KEY`
constraint rejects a duplicate id. -/
inductive SaveError where
  | dimMismatch
  | duplicateID
deriving DecidableEq

/-- `Save` runs a single INSERT into `episodic_memory`. The column type
`vector(1536)` (the table's declared dimension, `s.dim` here) rejects an
embedding of the wrong length, and the primary key rejects a duplicate id;
either failure aborts the INSERT and leaves the table unchanged. A successful
INSERT appends the row. -/
def Save (s : Store) (m : EpisodicMemory) : Except SaveError Store :=
  if m.Embedding.length ≠ s.dim then .error .dimMismatch
  else if s.rows.any (fun r => decide (r.ID = m.ID)) then .error .duplicateID
  else .ok ⟨s.dim, s.rows ++ [m]⟩

/-- `FindByID` runs a single SELECT with
`WHERE id = $1 AND user_id = $2 AND (entity_id IS NULL OR entity_id = $3)`
and scans the first row; `none` models the `pgx.ErrNoRows` error returned when
no row qualifies. -/
def FindByID (s : Store) (id : UUID) (p : PartitionContext) : Option EpisodicMemory :=
  s.rows.find? (fun r => decide (r.ID = id) && matchesPartition p r)

/-- A `FindByID` call as a state transformer on the table, with the clock
reading `now` at call time: the Go method executes only the SELECT — no UPDATE
— so it never consults the clock and the table after the call is the table
before it. -/
def FindByIDAt (s : Store) (id : UUID) (p : PartitionContext) (now : Int) :
    Option EpisodicMemory × Store :=
  (FindByID s id p, s)

/-- The sort relation of `ORDER BY timestamp DESC`: row `a` may come before
row `b` when `b`'s timestamp is at most `a`'s. -/
def recentBefore (a b : EpisodicMemory) : Prop := b.Timestamp ≤ a.Timestamp

instance : DecidableRel recentBefore := fun a b => Int.decLe b.Timestamp a.Timestamp

instance : IsTotal EpisodicMemory recentBefore := ⟨fun a b => le_total b.Timestamp a.Timestamp⟩

instance : IsTrans EpisodicMemory recentBefore := ⟨fun _ _ _ h1 h2 => le_trans h2 h1⟩

/-- `FindRecent` runs a single SELECT with the partition filter,
`ORDER BY timestamp DESC` and `LIMIT $3`. Postgres leaves the order of rows
with equal timestamps unspecified; the model resolves the nondeterminism by a
stable sort over physical row order. -/
def FindRecent (s : Store) (limit : Nat) (p : PartitionContext) : List EpisodicMemory :=
  ((s.rows.filter (matchesPartition p)).insertionSort recentBefore).take limit

/-- Dot product of two rational vectors (zipped; pgvector requires equal
dimensions). -/
def dot : List ℚ → List ℚ → ℚ
  | a :: as, b :: bs => a * b + dot as bs
  | _, _ => 0

/-- Sum of squares of a vector, the square of its Euclidean norm. -/
def sumSq (v : List ℚ) : ℚ := dot v v

/-- The comparison behind `ORDER BY embedding <=> $3` (pgvector cosine
distance `1 - dot(a,q)/(‖a‖·‖q‖)`): `cosDistLe q a b` decides
`dist(a,q) ≤ dist(b,q)`, which is equivalent to
`dot(b,q)·‖a‖ ≤ dot(a,q)·‖b‖`; the square roots are eliminated by sign
analysis and squaring, so the comparison is exact over ℚ. -/
def cosDistLe (q a b : List ℚ) : Bool :=
  let u := dot a q
  let v := dot b q
  if 0 ≤ u then
    if v ≤ 0 then true else decide (v ^ 2 * sumSq a ≤ u ^ 2 * sumSq b)
  else
    if v ≤ 0 then decide (u ^ 2 * sumSq b ≤ v ^ 2 * sumSq a) else false

/-- The sort relation of `ORDER BY embedding <=> $q`: ascending cosine
distance to the query vector. -/
def vectorBefore (q : List ℚ) (a b : EpisodicMemory) : Prop :=
  cosDistLe q a.Embedding b.Embedding = true

instance (q : List ℚ) : DecidableRel (vectorBefore q) :=
  fun a b => instDecidableEqBool (cosDistLe q a.Embedding b.Embedding) true

/-- `FindByVector` runs a single SELECT with the partition filter,
`ORDER BY embedding <=> $3` (ascending cosine distance to the query vector)
and `LIMIT $4`; ties are resolved as in `FindRecent`. -/
def FindByVector (s : Store) (vector : List ℚ) (limit : Nat) (p : PartitionContext) :
    List EpisodicMemory :=
  ((s.rows.filter (matchesPartition p)).insertionSort (vectorBefore vector)).take limit

/-- Modelled from the spec: the decay engine of §4.3 is not present in the Go
sources. One decay cycle maps an episode's accessibility score to
`accessibility_score * exp(-k * (1 - w * |valence.polarity|) * timeDelta)`
and then clamps the result below at 0 (`newScore = max(newScore, 0)`). -/
noncomputable def decayCycleScore (k w polarity timeDelta score : ℝ) : ℝ :=
  max (score * Real.exp (-k * (1 - w * |polarity|) * timeDelta)) 0

/-- Lexicographic byte order on UUID values (the comparison order Postgres
uses for the UUID type), used to state id tie-breaking. -/
def uuidLe : UUID → UUID → Bool
  | [], _ => true
  | _ :: _, [] => false
  | a :: as, b :: bs => if a < b then true else if a = b then uuidLe as bs else false

/-! Concrete fixtures used by witnesses and counterexamples. -/

/-- Owner id of the first tenant. -/
def uA : UUID := List.replicate 16 1

/-- Owner id of the second tenant. -/
def uB : UUID := List.replicate 16 2

/-- A sub-scope (`entity_id`) value. -/
def eX : UUID := List.replicate 16 3

/-- A record id; lexicographically smaller than `idTwo`. -/
def idOne : UUID := List.replicate 16 4

/-- A record id; lexicographically larger than `idOne`. -/
def idTwo : UUID := List.replicate 16 5

/-- Owner-wide partition context for tenant `uA` (no sub-scope). -/
def pOwnerWide : PartitionContext := ⟨uA, none⟩

/-- Owner-wide partition context for tenant `uB`. -/
def pOwnerB : PartitionContext := ⟨uB, none⟩

/-- A record of tenant `uA` carrying the sub-scope `eX`. -/
def rowScoped : EpisodicMemory :=
  { ID := idOne, UserID := uA, EntityID := some eX, Content := "a", Embedding := [1],
    Timestamp := 5, ShareScope := "user", LastAccessed := 5, AccessibilityScore := 1 }

/-- A table holding only the sub-scoped record `rowScoped`. -/
def storeScoped : Store := ⟨1, [rowScoped]⟩

/-- First physical row of `storeTie`: the record with the larger id. -/
def rowTieBig : EpisodicMemory :=
  { ID := idTwo, UserID := uA, EntityID := none, Content := "b", Embedding := [1],
    Timestamp := 7, ShareScope := "user", LastAccessed := 7, AccessibilityScore := 1 }

/-- Second physical row of `storeTie`: same timestamp, smaller id. -/
def rowTieSmall : EpisodicMemory :=
  { ID := idOne, UserID := uA, EntityID := none, Content := "c", Embedding := [2],
    Timestamp := 7, ShareScope := "user", LastAccessed := 7, AccessibilityScore := 1 }

/-- A table with two records of equal timestamp, larger id physically first. -/
def storeTie : Store := ⟨1, [rowTieBig, rowTieSmall]⟩

/-- A record of tenant `uB`. -/
def rowOtherOwner : EpisodicMemory :=
  { ID := idOne, UserID := uB, EntityID := none, Content := "d", Embedding := [3],
    Timestamp := 9, ShareScope := "user", LastAccessed := 9, AccessibilityScore := 1 }

/-- A table holding only tenant `uB`'s record. -/
def storeOther : Store := ⟨1, [rowOtherOwner]⟩

/-- The empty table with embedding dimension 1. -/
def storeEmpty : Store := ⟨1, []⟩

/-- A fresh record of tenant `uA`, not present in `storeEmpty`. -/
def rowFresh : EpisodicMemory :=
  { ID := idTwo, UserID := uA, EntityID := some eX, Content := "e", Embedding := [4],
    Timestamp := 3, ShareScope := "user", LastAccessed := 3, AccessibilityScore := 1 }

/-- A record whose embedding dimension 2 mismatches the tables of dimension 1. -/
def rowBadDim : EpisodicMemory :=
  { ID := idTwo, UserID := uA, EntityID := none, Content := "f", Embedding := [1, 2],
    Timestamp := 4, ShareScope := "user", LastAccessed := 4, AccessibilityScore := 1 }

/-! Helper lemmas about the partition filter and the three SELECTs. -/

theorem matchesPartition_userID {p : PartitionContext} {r : EpisodicMemory}
    (h : matchesPartition p r = true) : r.UserID = p.UserID := by
  have := (Bool.and_eq_true _ _).mp h
  exact of_decide_eq_true this.1

theorem matchesPartition_self (m : EpisodicMemory) :
    matchesPartition ⟨m.UserID, m.EntityID⟩ m = true := by
  cases hE : m.EntityID <;> simp [matchesPartition, sqlEqNullable, hE]

theorem mem_findRecent {s : Store} {n : Nat} {p : PartitionContext} {x : EpisodicMemory}
    (h : x ∈ FindRecent s n p) : x ∈ s.rows ∧ matchesPartition p x = true := by
  unfold FindRecent at h
  have h1 : x ∈ (s.rows.filter (matchesPartition p)).insertionSort recentBefore :=
    (List.take_sublist _ _).mem h
  have h2 : x ∈ s.rows.filter (matchesPartition p) := (List.mem_insertionSort _).mp h1
  exact List.mem_filter.mp h2

theorem mem_findByVector {s : Store} {q : List ℚ} {n : Nat} {p : PartitionContext}
    {x : EpisodicMemory} (h : x ∈ FindByVector s q n p) :
    x ∈ s.rows ∧ matchesPartition p x = true := by
  unfold FindByVector at h
  have h1 : x ∈ (s.rows.filter (matchesPartition p)).insertionSort (vectorBefore q) :=
    (List.take_sublist _ _).mem h
  have h2 : x ∈ s.rows.filter (matchesPartition p) := (List.mem_insertionSort _).mp h1
  exact List.mem_filter.mp h2

theorem findByID_sound {s : Store} {id : UUID} {p : PartitionContext} {r : EpisodicMemory}
    (h : FindByID s id p = some r) :
    r ∈ s.rows ∧ r.ID = id ∧ matchesPartition p r = true := by
  unfold FindByID at h
  have hmem := List.mem_of_find?_eq_some h
  have hpred := List.find?_some h
  simp only [Bool.and_eq_true, decide_eq_true_eq] at hpred
  exact ⟨hmem, hpred.1, hpred.2⟩

theorem mem_findRecent_iff {s : Store} {n : Nat} {p : PartitionContext} {x : EpisodicMemory}
    (hn : s.rows.length ≤ n) :
    x ∈ FindRecent s n p ↔ x ∈ s.rows ∧ matchesPartition p x = true := by
  unfold FindRecent
  have hlen : ((s.rows.filter (matchesPartition p)).insertionSort recentBefore).length ≤ n := by
    calc ((s.rows.filter (matchesPartition p)).insertionSort recentBefore).length
        = (s.rows.filter (matchesPartition p)).length :=
          (List.perm_insertionSort _ _).length_eq
      _ ≤ s.rows.length := List.length_filter_le _ _
      _ ≤ n := hn
  rw [List.take_of_length_le hlen, List.mem_insertionSort, List.mem_filter]

theorem mem_findByVector_iff {s : Store} {q : List ℚ} {n : Nat} {p : PartitionContext}
    {x : EpisodicMemory} (hn : s.rows.length ≤ n) :
    x ∈ FindByVector s q n p ↔ x ∈ s.rows ∧ matchesPartition p x = true := by
  unfold FindByVector
  have hlen : ((s.rows.filter (matchesPartition p)).insertionSort (vectorBefore q)).length ≤ n := by
    calc ((s.rows.filter (matchesPartition p)).insertionSort (vectorBefore q)).length
        = (s.rows.filter (matchesPartition p)).length :=
          (List.perm_insertionSort _ _).length_eq
      _ ≤ s.rows.length := List.length_filter_le _ _
      _ ≤ n := hn
  rw [List.take_of_length_le hlen, List.mem_insertionSort, List.mem_filter]

/-! Claim theorems. -/

/-- C1. Cross-owner partition isolation: for partitions `p1` and `p2` with
different owner ids and any episode `m` written under `p2` (its `owner_id` is
`p2`'s owner), no `FindByID`, `FindRecent` or `FindByVector` call under `p1`
ever returns `m` — every returned row carries `p1`'s `owner_id`, which differs
from `m`'s. -/
theorem crossOwnerIsolation (s : Store) (p1 p2 : PartitionContext) (m : EpisodicMemory)
    (q : List ℚ) (n : Nat) (id : UUID)
    (howner : p1.UserID ≠ p2.UserID) (hm : m.UserID = p2.UserID) :
    (∀ r, FindByID s id p1 = some r → r ≠ m) ∧
    m ∉ FindRecent s n p1 ∧ m ∉ FindByVector s q n p1 := by
  have hne : ∀ r : EpisodicMemory, matchesPartition p1 r = true → r ≠ m := by
    intro r hmatch heq
    subst heq
    exact howner ((matchesPartition_userID hmatch).symm.trans hm).symm.symm
  refine ⟨?_, ?_, ?_⟩
  · intro r hfind
    exact hne r (findByID_sound hfind).2.2
  · intro hmem
    exact hne m (mem_findRecent hmem).2 rfl
  · intro hmem
    exact hne m (mem_findByVector hmem).2 rfl

/-- Witness for C1: tenant `uB`'s record is invisible to every query of
tenant `uA`'s owner-wide partition. -/
theorem crossOwnerIsolation_witness :
    pOwnerWide.UserID ≠ pOwnerB.UserID ∧ rowOtherOwner.UserID = pOwnerB.UserID ∧
    ((∀ r, FindByID storeOther idOne pOwnerWide = some r → r ≠ rowOtherOwner) ∧
      rowOtherOwner ∉ FindRecent storeOther 5 pOwnerWide ∧
      rowOtherOwner ∉ FindByVector storeOther [1] 5 pOwnerWide) :=
  ⟨by decide, by decide,
    crossOwnerIsolation storeOther pOwnerWide pOwnerB rowOtherOwner [1] 5 idOne
      (by decide) (by decide)⟩

/-- C8. `FindByID` for an id whose record exists but fails the caller's
partition predicate returns the no-rows failure (`none`, the model of
`pgx.ErrNoRows`), and that outcome is identical to the one for an id absent
from the table: the two failures are indistinguishable. -/
theorem findByID_partitionMismatch (s sAbsent : Store) (id : UUID) (p : PartitionContext)
    (hexists : ∃ r ∈ s.rows, r.ID = id)
    (hmismatch : ∀ r ∈ s.rows, r.ID = id → matchesPartition p r = false)
    (habsent : ∀ r ∈ sAbsent.rows, r.ID ≠ id) :
    FindByID s id p = none ∧ FindByID sAbsent id p = FindByID s id p := by
  have h1 : FindByID s id p = none := by
    unfold FindByID
    rw [List.find?_eq_none]
    intro x hx hpred
    simp only [Bool.and_eq_true, decide_eq_true_eq] at hpred
    have := hmismatch x hx hpred.1
    rw [this] at hpred
    exact Bool.false_ne_true hpred.2
  have h2 : FindByID sAbsent id p = none := by
    unfold FindByID
    rw [List.find?_eq_none]
    intro x hx hpred
    simp only [Bool.and_eq_true, decide_eq_true_eq] at hpred
    exact habsent x hx hpred.1
  exact ⟨h1, h2.trans h1.symm⟩

/-- Witness for C8: `idOne` exists in `storeOther` but belongs to tenant `uB`,
so tenant `uA`'s lookup fails exactly as it does on the empty table. -/
theorem findByID_partitionMismatch_witness :
    (∃ r ∈ storeOther.rows, r.ID = idOne) ∧
    (FindByID storeOther idOne pOwnerWide = none ∧
      FindByID storeEmpty idOne pOwnerWide = FindByID storeOther idOne pOwnerWide) :=
  ⟨by decide,
    findByID_partitionMismatch storeOther storeEmpty idOne pOwnerWide
      (by decide) (by decide) (by decide)⟩

/-- C9. A partition with no matching records makes `FindRecent` and
`FindByVector` succeed with the empty list (the Go loop over zero rows
returns a nil slice and a nil error), not a `NotFound` or other failure. -/
theorem emptyPartitionQueries (s : Store) (p : PartitionContext) (q : List ℚ) (n : Nat)
    (h : ∀ r ∈ s.rows, matchesPartition p r = false) :
    FindRecent s n p = [] ∧ FindByVector s q n p = [] := by
  have hfil : s.rows.filter (matchesPartition p) = [] := by
    rw [List.filter_eq_nil_iff]
    intro x hx hpred
    rw [h x hx] at hpred
    exact Bool.false_ne_true hpred
  constructor
  · unfold FindRecent
    rw [hfil]
    simp
  · unfold FindByVector
    rw [hfil]
    simp

/-- Witness for C9: tenant `uB`'s partition matches nothing in `storeTie`. -/
theorem emptyPartitionQueries_witness :
    (∀ r ∈ storeTie.rows, matchesPartition pOwnerB r = false) ∧
    (FindRecent storeTie 5 pOwnerB = [] ∧ FindByVector storeTie [1] 5 pOwnerB = []) :=
  ⟨by decide, emptyPartitionQueries storeTie pOwnerB [1] 5 (by decide)⟩

/-- C2, counterexample. The claim's predicate (the spec's §4.1 wording,
`matchesPartitionSpec`) deems the sub-scoped record `rowScoped` visible to the
owner-wide partition `pOwnerWide` (sub-scope absent), yet none of the three
queries returns it: the SQL clause `entity_id IS NULL OR entity_id = $3`
compares against a NULL parameter, which under three-valued logic does not
hold for a non-NULL `entity_id`. -/
theorem partitionPredicate_cex :
    matchesPartitionSpec pOwnerWide rowScoped = true ∧
    FindByID storeScoped rowScoped.ID pOwnerWide = none ∧
    FindRecent storeScoped 10 pOwnerWide = [] ∧
    FindByVector storeScoped [1] 10 pOwnerWide = [] :=
  ⟨by decide, by decide, by decide, by decide⟩

/-- C2, amended. A stored record is visible to the three queries under
partition `\x7bowner_id=U, sub_scope_id=S\x7d` iff its `owner_id` equals `U`
and (its `sub_scope_id` is absent, or `S` is present and equal to it) — the
predicate `matchesPartition` implemented by the SQL. In particular a query
with `S` absent returns only un-scoped records of owner `U`, not its
sub-scoped ones. Stated for the list queries with `limit` at least the table
size (so `LIMIT` drops nothing) and for `FindByID` on a table whose ids are
unique, as the primary key guarantees. -/
theorem partitionPredicate_amended (s : Store) (p : PartitionContext) (r : EpisodicMemory)
    (q : List ℚ) (n : Nat)
    (hr : r ∈ s.rows) (hn : s.rows.length ≤ n)
    (hids : (s.rows.map (fun x => x.ID)).Nodup) :
    (r ∈ FindRecent s n p ↔ matchesPartition p r = true) ∧
    (r ∈ FindByVector s q n p ↔ matchesPartition p r = true) ∧
    (FindByID s r.ID p = some r ↔ matchesPartition p r = true) := by
  refine ⟨?_, ?_, ?_, ?_⟩
  · rw [mem_findRecent_iff hn]
    exact ⟨fun h => h.2, fun h => ⟨hr, h⟩⟩
  · rw [mem_findByVector_iff hn]
    exact ⟨fun h => h.2, fun h => ⟨hr, h⟩⟩
  · intro h
    exact (findByID_sound h).2.2
  · intro hm
    have hex : ∃ x ∈ s.rows, (decide (x.ID = r.ID) && matchesPartition p x) = true :=
      ⟨r, hr, by simp [hm]⟩
    obtain ⟨x, hfind⟩ :=
      Option.isSome_iff_exists.mp (List.find?_isSome.mpr hex)
    have hpred := List.find?_some hfind
    have hxmem := List.mem_of_find?_eq_some hfind
    simp only [Bool.and_eq_true, decide_eq_true_eq] at hpred
    have hxr : x = r := List.inj_on_of_nodup_map hids hxmem hr hpred.1
    unfold FindByID
    rw [hfind, hxr]

/-- Witness for C2's amended theorem at `rowTieBig` in `storeTie` under the
owner-wide partition of tenant `uA`. -/
theorem partitionPredicate_amended_witness :
    rowTieBig ∈ storeTie.rows ∧
    ((rowTieBig ∈ FindRecent storeTie 2 pOwnerWide ↔
        matchesPartition pOwnerWide rowTieBig = true) ∧
      (rowTieBig ∈ FindByVector storeTie [1] 2 pOwnerWide ↔
        matchesPartition pOwnerWide rowTieBig = true) ∧
      (FindByID storeTie rowTieBig.ID pOwnerWide = some rowTieBig ↔
        matchesPartition pOwnerWide rowTieBig = true)) :=
  ⟨by decide,
    partitionPredicate_amended storeTie pOwnerWide rowTieBig [1] 2
      (by decide) (by decide) (by decide)⟩

/-- C4, counterexample. `storeTie` holds two records of tenant `uA` with equal
timestamps, the record with the lexicographically larger id physically first;
`FindRecent` (whose SQL is `ORDER BY timestamp DESC LIMIT $3`, with no id
tie-break) returns them in physical order, so the tie is not broken by id
ascending — and the order is not strict in `created_at`. -/
theorem findRecent_tieBreak_cex :
    FindRecent storeTie 2 pOwnerWide = [rowTieBig, rowTieSmall] ∧
    rowTieBig.Timestamp = rowTieSmall.Timestamp ∧
    uuidLe rowTieBig.ID rowTieSmall.ID = false :=
  ⟨by decide, by decide, by decide⟩

/-- C4, amended. `FindRecent limit partition` returns at most `limit` records,
all satisfying the partition predicate the SQL implements, ordered by creation
timestamp descending (non-strictly: equal timestamps may repeat, and their
relative order follows the table's physical order rather than an id
tie-break). -/
theorem findRecent_amended (s : Store) (n : Nat) (p : PartitionContext) :
    (FindRecent s n p).length ≤ n ∧
    (∀ r ∈ FindRecent s n p, matchesPartition p r = true) ∧
    List.Sorted recentBefore (FindRecent s n p) := by
  refine ⟨?_, ?_, ?_⟩
  · unfold FindRecent
    simp [List.length_take]
  · intro r hr
    exact (mem_findRecent hr).2
  · have hsorted :
        List.Sorted recentBefore
          ((s.rows.filter (matchesPartition p)).insertionSort recentBefore) :=
      List.sorted_insertionSort recentBefore _
    exact hsorted.sublist (List.take_sublist _ _)

/-- Witness for C4's amended theorem on the two-record table `storeTie`. -/
theorem findRecent_amended_witness :
    (FindRecent storeTie 2 pOwnerWide).length ≤ 2 ∧
    (∀ r ∈ FindRecent storeTie 2 pOwnerWide, matchesPartition pOwnerWide r = true) ∧
    List.Sorted recentBefore (FindRecent storeTie 2 pOwnerWide) :=
  findRecent_amended storeTie 2 pOwnerWide

/-- C5. Round-trip: a successful `Save` of episode `m` followed by `FindByID`
with `m`'s id under `m`'s own partition (`m`'s owner and sub-scope) returns
exactly the saved record — every stored field equal, because `FindByID`
selects all columns of the inserted row unchanged. -/
theorem saveRoundTrip (s s' : Store) (m : EpisodicMemory)
    (h : Save s m = Except.ok s') :
    FindByID s' m.ID ⟨m.UserID, m.EntityID⟩ = some m := by
  unfold Save at h
  split at h
  · exact absurd h (by simp)
  next hdim =>
    split at h
    · exact absurd h (by simp)
    next hdup =>
      have hs' : s' = ⟨s.dim, s.rows ++ [m]⟩ := by
        cases h
        rfl
      subst hs'
      have hno : ∀ x ∈ s.rows, ¬(x.ID = m.ID) := by
        intro x hx hid
        exact hdup (List.any_eq_true.mpr ⟨x, hx, decide_eq_true hid⟩)
      unfold FindByID
      rw [List.find?_append]
      have h1 : s.rows.find?
          (fun r => decide (r.ID = m.ID) && matchesPartition ⟨m.UserID, m.EntityID⟩ r) =
          none := by
        rw [List.find?_eq_none]
        intro x hx hpred
        simp only [Bool.and_eq_true, decide_eq_true_eq] at hpred
        exact hno x hx hpred.1
      rw [h1]
      simp [List.find?, matchesPartition_self m]

/-- Witness for C5: saving `rowFresh` into the empty table and looking it up
under its own partition returns it unchanged. -/
theorem saveRoundTrip_witness :
    Save storeEmpty rowFresh = Except.ok ⟨1, [rowFresh]⟩ ∧
    FindByID ⟨1, [rowFresh]⟩ rowFresh.ID ⟨rowFresh.UserID, rowFresh.EntityID⟩ = some rowFresh :=
  ⟨rfl, saveRoundTrip storeEmpty ⟨1, [rowFresh]⟩ rowFresh rfl⟩

/-- C6, counterexample. A successful `FindByID` read (at clock reading 10)
leaves the table unchanged and returns the record still carrying its stored
`last_accessed` value 7: the Go method executes only a SELECT, so the read
does not update `last_accessed_at` to the current time, contrary to the
claim. -/
theorem findByIDTouch_cex :
    (FindByIDAt storeTie idOne pOwnerWide 10).2 = storeTie ∧
    (FindByIDAt storeTie idOne pOwnerWide 10).1 = some rowTieSmall ∧
    rowTieSmall.LastAccessed ≠ 10 :=
  ⟨rfl, by decide, by decide⟩

/-- C6, amended. `FindByID` performs no write at all: whatever the clock reads,
the table after the call equals the table before it, and a returned record is
one of the stored rows unchanged — `last_accessed` keeps its stored value
(which `NewEpisodicMemory` set to the creation timestamp) rather than being
touched on reads. -/
theorem findByIDTouch_amended (s : Store) (id : UUID) (p : PartitionContext) (now : Int) :
    (FindByIDAt s id p now).2 = s ∧
    ∀ r, (FindByIDAt s id p now).1 = some r → r ∈ s.rows := by
  refine ⟨rfl, ?_⟩
  intro r h
  exact (findByID_sound h).1

/-- Witness for C6's amended theorem on `storeTie` at clock reading 10. -/
theorem findByIDTouch_amended_witness :
    (FindByIDAt storeTie idOne pOwnerWide 10).2 = storeTie ∧
    ∀ r, (FindByIDAt storeTie idOne pOwnerWide 10).1 = some r → r ∈ storeTie.rows :=
  findByIDTouch_amended storeTie idOne pOwnerWide 10

/-- C7. `Save` fails with the dimension-mismatch error when the embedding
length differs from the table's declared dimension, and with the
duplicate-id error when a row with the same id exists; in either case no `ok`
table is produced — nothing is inserted, since only an `ok` result carries a
modified table. -/
theorem saveErrors (s : Store) (m m' : EpisodicMemory)
    (hdim : m.Embedding.length ≠ s.dim)
    (hdim' : m'.Embedding.length = s.dim)
    (hdup : ∃ r ∈ s.rows, r.ID = m'.ID) :
    Save s m = Except.error SaveError.dimMismatch ∧
    Save s m' = Except.error SaveError.duplicateID ∧
    (∀ t : Store, Save s m ≠ Except.ok t) ∧
    (∀ t : Store, Save s m' ≠ Except.ok t) := by
  have h1 : Save s m = Except.error SaveError.dimMismatch := by
    unfold Save
    rw [if_pos hdim]
  have h2 : Save s m' = Except.error SaveError.duplicateID := by
    unfold Save
    rw [if_neg (by simp [hdim'])]
    obtain ⟨r, hr, hid⟩ := hdup
    rw [if_pos (List.any_eq_true.mpr ⟨r, hr, decide_eq_true hid⟩)]
  refine ⟨h1, h2, ?_, ?_⟩
  · intro t ht
    rw [h1] at ht
    exact absurd ht (by simp)
  · intro t ht
    rw [h2] at ht
    exact absurd ht (by simp)

/-- Witness for C7: on the dimension-1 table `storeTie`, the two-dimensional
`rowBadDim` is rejected as a dimension mismatch, and `rowScoped` (whose id
`idOne` is already present) is rejected as a duplicate. -/
theorem saveErrors_witness :
    rowBadDim.Embedding.length ≠ storeTie.dim ∧
    (∃ r ∈ storeTie.rows, r.ID = rowScoped.ID) ∧
    (Save storeTie rowBadDim = Except.error SaveError.dimMismatch ∧
      Save storeTie rowScoped = Except.error SaveError.duplicateID ∧
      (∀ t : Store, Save storeTie rowBadDim ≠ Except.ok t) ∧
      (∀ t : Store, Save storeTie rowScoped ≠ Except.ok t)) :=
  ⟨by decide, by decide,
    saveErrors storeTie rowBadDim rowScoped (by decide) (by decide) (by decide)⟩

/-- C3. One decay cycle (spec §4.3, modelled: the engine is absent from the
sources) maps the accessibility score to
`score * exp(-k * (1 - w * |polarity|) * timeDelta)` clamped below at 0; for
nonnegative rate `k`, valence weight `0 ≤ w ≤ 1`, polarity in `[-1, 1]`,
nonnegative elapsed time and nonnegative current score, the new score never
exceeds the old one and is never negative. -/
theorem decayMonotonicity (k w polarity timeDelta score : ℝ)
    (hk : 0 ≤ k) (hw0 : 0 ≤ w) (hw1 : w ≤ 1) (hp : |polarity| ≤ 1)
    (ht : 0 ≤ timeDelta) (hs : 0 ≤ score) :
    decayCycleScore k w polarity timeDelta score ≤ score ∧
    0 ≤ decayCycleScore k w polarity timeDelta score := by
  constructor
  · have hwp : w * |polarity| ≤ 1 := mul_le_one₀ hw1 (abs_nonneg polarity) hp
    have hfac : 0 ≤ 1 - w * |polarity| := by linarith
    have hE : -k * (1 - w * |polarity|) * timeDelta ≤ 0 := by
      have := mul_nonneg (mul_nonneg hk hfac) ht
      nlinarith
    have hexp : Real.exp (-k * (1 - w * |polarity|) * timeDelta) ≤ 1 := by
      calc Real.exp (-k * (1 - w * |polarity|) * timeDelta)
          ≤ Real.exp 0 := Real.exp_le_exp.mpr hE
        _ = 1 := Real.exp_zero
    exact max_le (mul_le_of_le_one_right hs hexp) hs
  · exact le_max_right _ _

/-- Witness for C3 at the spec's scenario constants `k = 1e-7`, `w = 0.8`,
polarity `0.9`, `timeDelta = 1e6` seconds, score 1. -/
theorem decayMonotonicity_witness :
    |(9 / 10 : ℝ)| ≤ 1 ∧
    (decayCycleScore (1 / 10000000) (8 / 10) (9 / 10) 1000000 1 ≤ 1 ∧
      0 ≤ decayCycleScore (1 / 10000000) (8 / 10) (9 / 10) 1000000 1) :=
  ⟨by rw [abs_of_nonneg (by norm_num : (0:ℝ) ≤ 9 / 10)]; norm_num,
    decayMonotonicity (1 / 10000000) (8 / 10) (9 / 10) 1000000 1 (by norm_num)
      (by norm_num) (by norm_num)
      (by rw [abs_of_nonneg (by norm_num : (0:ℝ) ≤ 9 / 10)]; norm_num)
      (by norm_num) (by norm_num)⟩

/-- The version-4 stamp makes byte 6 of a generated UUID nonzero, so
`uuid.New` never returns the all-zero UUID. -/
theorem uuidNew_ne_uuidNil (entropy : List Nat) (hlen : entropy.length = 16) :
    uuidNew entropy ≠ uuidNil := by
  intro h
  have hl : 6 < (entropy.map (fun b => b % 256)).length := by
    simp [hlen]
  have h6 : (uuidNew entropy).getD 6 0 = (entropy.getD 6 0 % 256 &&& 0x0f) ||| 0x40 := by
    simp [uuidNew, List.getD, List.getElem?_set_ne (by decide : (8:Nat) ≠ 6),
      List.getElem?_set_eq_of_lt _ hl]
  have h0 : uuidNil.getD 6 0 = 0 := by decide
  rw [h, h0] at h6
  have hbit : ((entropy.getD 6 0 % 256 &&& 0x0f) ||| 0x40).testBit 6 = true := by
    rw [Nat.testBit_or]
    have : Nat.testBit 0x40 6 = true := by decide
    rw [this]
    exact Bool.or_true _
  rw [← h6] at hbit
  rw [Nat.zero_testBit] at hbit
  exact Bool.false_ne_true hbit

/-- C10. `NewEpisodicMemory` initializes `LastAccessed` to the supplied
creation timestamp exactly, `AccessibilityScore` to 1.0, generates a fresh
version-4 id (never the nil UUID), and copies every remaining argument
unchanged; hence `last_accessed ≥ timestamp` holds with equality at
creation. -/
theorem newEpisodicMemoryDefaults (entropy : List Nat) (userID : UUID)
    (entityID : Option UUID) (content : String) (embedding : List ℚ) (timestamp : Int)
    (shareScope : String) (hlen : entropy.length = 16) :
    (NewEpisodicMemory entropy userID entityID content embedding timestamp
        shareScope).LastAccessed = timestamp ∧
    (NewEpisodicMemory entropy userID entityID content embedding timestamp
        shareScope).AccessibilityScore = 1 ∧
    (NewEpisodicMemory entropy userID entityID content embedding timestamp
        shareScope).ID = uuidNew entropy ∧
    (NewEpisodicMemory entropy userID entityID content embedding timestamp
        shareScope).ID ≠ uuidNil ∧
    (NewEpisodicMemory entropy userID entityID content embedding timestamp
        shareScope).UserID = userID ∧
    (NewEpisodicMemory entropy userID entityID content embedding timestamp
        shareScope).EntityID = entityID ∧
    (NewEpisodicMemory entropy userID entityID content embedding timestamp
        shareScope).Content = content ∧
    (NewEpisodicMemory entropy userID entityID content embedding timestamp
        shareScope).Embedding = embedding ∧
    (NewEpisodicMemory entropy userID entityID content embedding timestamp
        shareScope).Timestamp = timestamp ∧
    (NewEpisodicMemory entropy userID entityID content embedding timestamp
        shareScope).ShareScope = shareScope ∧
    (NewEpisodicMemory entropy userID entityID content embedding timestamp
        shareScope).LastAccessed =
      (NewEpisodicMemory entropy userID entityID content embedding timestamp
        shareScope).Timestamp :=
  ⟨rfl, rfl, rfl, uuidNew_ne_uuidNil entropy hlen, rfl, rfl, rfl, rfl, rfl, rfl, rfl⟩

/-- Witness for C10 at all-zero entropy bytes and concrete arguments. -/
theorem newEpisodicMemoryDefaults_witness :
    (List.replicate 16 0).length = 16 ∧
    ((NewEpisodicMemory (List.replicate 16 0) uA (some eX) "g" [1] 11
        "user").LastAccessed = 11 ∧
      (NewEpisodicMemory (List.replicate 16 0) uA (some eX) "g" [1] 11
        "user").AccessibilityScore = 1 ∧
      (NewEpisodicMemory (List.replicate 16 0) uA (some eX) "g" [1] 11
        "user").ID = uuidNew (List.replicate 16 0) ∧
      (NewEpisodicMemory (List.replicate 16 0) uA (some eX) "g" [1] 11
        "user").ID ≠ uuidNil ∧
      (NewEpisodicMemory (List.replicate 16 0) uA (some eX) "g" [1] 11
        "user").UserID = uA ∧
      (NewEpisodicMemory (List.replicate 16 0) uA (some eX) "g" [1] 11
        "user").EntityID = some eX ∧
      (NewEpisodicMemory (List.replicate 16 0) uA (some eX) "g" [1] 11
        "user").Content = "g" ∧
      (NewEpisodicMemory (List.replicate 16 0) uA (some eX) "g" [1] 11
        "user").Embedding = [1] ∧
      (NewEpisodicMemory (List.replicate 16 0) uA (some eX) "g" [1] 11
        "user").Timestamp = 11 ∧
      (NewEpisodicMemory (List.replicate 16 0) uA (some eX) "g" [1] 11
        "user").ShareScope = "user" ∧
      (NewEpisodicMemory (List.replicate 16 0) uA (some eX) "g" [1] 11
        "user").LastAccessed =
        (NewEpisodicMemory (List.replicate 16 0) uA (some eX) "g" [1] 11
          "user").Timestamp) :=
  ⟨by decide,
    newEpisodicMemoryDefaults (List.replicate 16 0) uA (some eX) "g" [1] 11 "user"
      (by decide)⟩

end CogMem
